import Mathlib

/-!
A shallow embedding of the michis_cassette_vec crate: the CollectionCursor
pairing a backing collection with a head position, the SeekFrom directive
type, the seek arithmetic over usize with checked signed addition, the
head-relative operations, and the Vec adapter of src/tapelike_impls.rs
modelled over List.
-/

namespace MichisCassetteVec

/-- The number of values of the 64-bit usize type; the checked signed
addition used by seek fails exactly when its mathematical result falls
outside the interval from 0 up to (but excluding) this bound. -/
def USIZE_LIMIT : Nat := 2 ^ 64

/-- usize::checked_add_signed: adds a signed offset to an unsigned value,
returning none when the mathematical result is negative or does not fit in
usize. -/
def checked_add_signed (n : Nat) (i : Int) : Option Nat :=
  if 0 ≤ (n : Int) + i then
    if ((n : Int) + i).toNat < USIZE_LIMIT then
      some ((n : Int) + i).toNat
    else
      none
  else
    none

/-- The SeekFrom directive (src/lib.rs): absolute, end-relative, or
current-relative addressing. -/
inductive SeekFrom where
  | Start : Nat → SeekFrom
  | End : Int → SeekFrom
  | Current : Int → SeekFrom
  deriving DecidableEq, Repr

/-- The IndexableCollection capability (read contract, src/lib.rs): a
length and read access by index. -/
class IndexableCollection (Tape : Type) (Item : outParam Type) where
  len : Tape → Nat
  get_item : Tape → Nat → Option Item

/-- The IndexableCollectionMut capability (mutable contract, src/lib.rs).
The Rust methods take the collection by mutable reference; here each
returns the updated collection, and get_item_mut returns the value seen
through the returned reference together with the collection as the call
leaves it. -/
class IndexableCollectionMut (Tape : Type) (Item : outParam Type) extends
    IndexableCollection Tape Item where
  get_item_mut : Tape → Nat → Option Item × Tape
  set_item : Tape → Nat → Item → Tape
  remove_item : Tape → Nat → Option Item × Tape
  clear : Tape → Tape

/-- CollectionCursor (src/lib.rs): the backing collection and the head
position. -/
structure CollectionCursor (Tape : Type) where
  inner : Tape
  pos : Nat
  deriving DecidableEq, Repr

namespace CollectionCursor

/-- CollectionCursor::new: wraps a collection, with initial position 0
(the usize default). -/
def new {Tape : Type} (inner : Tape) : CollectionCursor Tape :=
  { inner := inner, pos := 0 }

/-- CollectionCursor::position. -/
def position {Tape : Type} (c : CollectionCursor Tape) : Nat :=
  c.pos

/-- CollectionCursor::get_ref. -/
def get_ref {Tape : Type} (c : CollectionCursor Tape) : Tape :=
  c.inner

/-- CollectionCursor::get_mut: the caller receives mutable access to the
collection; applying an arbitrary caller-chosen update f models what the
caller may do through the returned reference. -/
def get_mut {Tape : Type} (c : CollectionCursor Tape) (f : Tape → Tape) :
    CollectionCursor Tape :=
  { c with inner := f c.inner }

/-- CollectionCursor::into_inner. -/
def into_inner {Tape : Type} (c : CollectionCursor Tape) : Tape :=
  c.inner

/-- The desired_position computation inside CollectionCursor::seek
(src/lib.rs): Start p is the candidate p itself; End p adds p to the
collection length with checked signed addition; Current p adds p to the
current position the same way. -/
def seek_candidate {Tape Item : Type} [IndexableCollection Tape Item]
    (c : CollectionCursor Tape) : SeekFrom → Option Nat
  | SeekFrom.Start p => some p
  | SeekFrom.End p => checked_add_signed (IndexableCollection.len c.inner) p
  | SeekFrom.Current p => checked_add_signed c.pos p

/-- CollectionCursor::seek (src/lib.rs): computes the desired position,
keeps it only when it is at most the collection length, and on success
commits it as the new head position; the result pairs the returned
Option with the cursor as the call leaves it. -/
def seek {Tape Item : Type} [IndexableCollection Tape Item]
    (c : CollectionCursor Tape) (pos : SeekFrom) :
    Option Nat × CollectionCursor Tape :=
  let collection_len := IndexableCollection.len c.inner
  match Option.filter (fun q => decide (q ≤ collection_len)) (seek_candidate c pos) with
  | some new_pos => (some new_pos, { c with pos := new_pos })
  | none => (none, c)

/-- CollectionCursor::clamp_to_collection_bounds (src/lib.rs): the
position becomes the smaller of the position and the collection length. -/
def clamp_to_collection_bounds {Tape Item : Type} [IndexableCollection Tape Item]
    (c : CollectionCursor Tape) : CollectionCursor Tape :=
  { c with pos := min c.pos (IndexableCollection.len c.inner) }

/-- CollectionCursor::seek_to_start (src/lib.rs): sets the position to 0
directly. -/
def seek_to_start {Tape : Type} (c : CollectionCursor Tape) : CollectionCursor Tape :=
  { c with pos := 0 }

/-- CollectionCursor::seek_relative (src/lib.rs): seek with a
current-relative directive. -/
def seek_relative {Tape Item : Type} [IndexableCollection Tape Item]
    (c : CollectionCursor Tape) (offset : Int) : Option Nat × CollectionCursor Tape :=
  seek c (SeekFrom.Current offset)

/-- CollectionCursor::seek_backward_one (src/lib.rs): seek_relative by -1,
reporting whether it succeeded. -/
def seek_backward_one {Tape Item : Type} [IndexableCollection Tape Item]
    (c : CollectionCursor Tape) : Bool × CollectionCursor Tape :=
  let r := seek_relative c (-1)
  (r.1.isSome, r.2)

/-- CollectionCursor::seek_forward_one (src/lib.rs): seek_relative by 1,
reporting whether it succeeded. -/
def seek_forward_one {Tape Item : Type} [IndexableCollection Tape Item]
    (c : CollectionCursor Tape) : Bool × CollectionCursor Tape :=
  let r := seek_relative c 1
  (r.1.isSome, r.2)

/-- CollectionCursor::seek_to_last_item (src/lib.rs): sets the position to
the checked predecessor of the length, defaulting to 0; Nat subtraction
renders checked_sub(1).unwrap_or_default exactly. -/
def seek_to_last_item {Tape Item : Type} [IndexableCollection Tape Item]
    (c : CollectionCursor Tape) : CollectionCursor Tape :=
  { c with pos := IndexableCollection.len c.inner - 1 }

/-- CollectionCursor::seek_to_end (src/lib.rs): sets the position to the
collection length directly. -/
def seek_to_end {Tape Item : Type} [IndexableCollection Tape Item]
    (c : CollectionCursor Tape) : CollectionCursor Tape :=
  { c with pos := IndexableCollection.len c.inner }

/-- CollectionCursor::get_item_at_head (src/lib.rs): reads the item at the
current position; takes the cursor immutably, so the cursor itself is
untouched. -/
def get_item_at_head {Tape Item : Type} [IndexableCollection Tape Item]
    (c : CollectionCursor Tape) : Option Item :=
  IndexableCollection.get_item c.inner c.pos

/-- CollectionCursor::clear (src/lib.rs): clears the collection and resets
the position to 0. -/
def clear {Tape Item : Type} [IndexableCollectionMut Tape Item]
    (c : CollectionCursor Tape) : CollectionCursor Tape :=
  { inner := IndexableCollectionMut.clear c.inner, pos := 0 }

/-- CollectionCursor::get_item_at_head_mut (src/lib.rs): mutable access to
the item at the current position, delegated to the collection. -/
def get_item_at_head_mut {Tape Item : Type} [IndexableCollectionMut Tape Item]
    (c : CollectionCursor Tape) : Option Item × CollectionCursor Tape :=
  let r := IndexableCollectionMut.get_item_mut c.inner c.pos
  (r.1, { c with inner := r.2 })

/-- CollectionCursor::set_item_at_head (src/lib.rs): sets an item at the
current position, delegated to the collection. -/
def set_item_at_head {Tape Item : Type} [IndexableCollectionMut Tape Item]
    (c : CollectionCursor Tape) (item : Item) : CollectionCursor Tape :=
  { c with inner := IndexableCollectionMut.set_item c.inner c.pos item }

/-- CollectionCursor::remove_item_at_head (src/lib.rs): removes the item
at the current position, delegated to the collection. -/
def remove_item_at_head {Tape Item : Type} [IndexableCollectionMut Tape Item]
    (c : CollectionCursor Tape) : Option Item × CollectionCursor Tape :=
  let r := IndexableCollectionMut.remove_item c.inner c.pos
  (r.1, { c with inner := r.2 })

end CollectionCursor

/-- The Vec read adapter (src/tapelike_impls.rs) with a vector modelled as
a List: len is the length and get_item is positional lookup. -/
instance instListIndexable {α : Type} : IndexableCollection (List α) α where
  len := List.length
  get_item := fun l i => l[i]?

/-- The Vec mutable adapter (src/tapelike_impls.rs): set_item is
Vec::insert, a shifting insertion (Vec::insert panics for an index past
the length, a case core-mediated use never produces; insertIdx leaves the
list unchanged there); remove_item guards the index against the length
before removing, as the source does; clear empties the vector. -/
instance instListIndexableMut {α : Type} : IndexableCollectionMut (List α) α where
  get_item_mut := fun l i => (l[i]?, l)
  set_item := fun l i x => List.insertIdx i x l
  remove_item := fun l i => if i < l.length then (l[i]?, l.eraseIdx i) else (none, l)
  clear := fun _ => []

/-- checked_add_signed is some exactly at the mathematical sum when that
sum is a Nat below USIZE_LIMIT. -/
theorem checked_add_signed_eq_some {n m : Nat} {i : Int}
    (h : (n : Int) + i = (m : Int)) (hm : m < USIZE_LIMIT) :
    checked_add_signed n i = some m := by
  have h0 : 0 ≤ (n : Int) + i := by omega
  rw [checked_add_signed, if_pos h0, h]
  simp [hm]

/-- checked_add_signed is none when the mathematical sum is negative or at
least USIZE_LIMIT. -/
theorem checked_add_signed_eq_none {n : Nat} {i : Int}
    (h : (n : Int) + i < 0 ∨ (USIZE_LIMIT : Int) ≤ (n : Int) + i) :
    checked_add_signed n i = none := by
  rcases h with h | h
  · rw [checked_add_signed, if_neg (by omega)]
  · have h0 : 0 ≤ (n : Int) + i := by omega
    rw [checked_add_signed, if_pos h0, if_neg (by omega)]

/-- seek commits an in-range candidate as the new position and returns
it. -/
theorem seek_of_candidate_le {Tape Item : Type} [inst : IndexableCollection Tape Item]
    (c : CollectionCursor Tape) (d : SeekFrom) (m : Nat)
    (h : c.seek_candidate d = some m) (hm : m ≤ inst.len c.inner) :
    c.seek d = (some m, { c with pos := m }) := by
  simp [CollectionCursor.seek, h, Option.filter, hm]

/-- seek fails without moving when the candidate is past the collection
length. -/
theorem seek_of_candidate_gt {Tape Item : Type} [inst : IndexableCollection Tape Item]
    (c : CollectionCursor Tape) (d : SeekFrom) (m : Nat)
    (h : c.seek_candidate d = some m) (hm : inst.len c.inner < m) :
    c.seek d = (none, c) := by
  simp [CollectionCursor.seek, h, Option.filter, Nat.not_le.mpr hm]

/-- seek fails without moving when the candidate computation itself
fails. -/
theorem seek_of_candidate_none {Tape Item : Type} [inst : IndexableCollection Tape Item]
    (c : CollectionCursor Tape) (d : SeekFrom)
    (h : c.seek_candidate d = none) :
    c.seek d = (none, c) := by
  simp [CollectionCursor.seek, h, Option.filter]

/-- Claim C1: seeking Start p with p at most the collection length N
succeeds, sets the position to exactly p, and returns the new position;
seeking Start p with p greater than N fails and leaves the cursor
unchanged. -/
theorem seek_start_correct {Tape Item : Type} [inst : IndexableCollection Tape Item]
    (c : CollectionCursor Tape) (p : Nat) :
    (p ≤ inst.len c.inner →
      c.seek (SeekFrom.Start p) = (some p, { c with pos := p })) ∧
    (inst.len c.inner < p →
      c.seek (SeekFrom.Start p) = (none, c)) := by
  constructor
  · intro h
    simp [CollectionCursor.seek, CollectionCursor.seek_candidate, Option.filter, h]
  · intro h
    simp [CollectionCursor.seek, CollectionCursor.seek_candidate, Option.filter,
      Nat.not_le.mpr h]

/-- Concrete instantiation of seek_start_correct on the list with items
0, 1, 2 at the in-range index 2 and the out-of-range index 7. -/
theorem seek_start_correct_witness :
    (CollectionCursor.new ([0, 1, 2] : List Nat)).seek (SeekFrom.Start 2) =
      (some 2, { inner := [0, 1, 2], pos := 2 }) ∧
    (CollectionCursor.new ([0, 1, 2] : List Nat)).seek (SeekFrom.Start 7) =
      (none, CollectionCursor.new [0, 1, 2]) :=
  ⟨(seek_start_correct (CollectionCursor.new [0, 1, 2]) 2).1 (by decide),
   (seek_start_correct (CollectionCursor.new [0, 1, 2]) 7).2 (by decide)⟩

/-- Claim C2: for a collection of length N, seeking End 0 succeeds and
sets the position to N; seeking End (-k) for k between 0 and N succeeds
and sets the position to N - k; seeking End 1 and End (-(N+1)) fail and
leave the position unchanged. -/
theorem seek_end_correct {Tape Item : Type} [inst : IndexableCollection Tape Item]
    (c : CollectionCursor Tape) (hN : inst.len c.inner < USIZE_LIMIT) :
    (c.seek (SeekFrom.End 0) =
      (some (inst.len c.inner), { c with pos := inst.len c.inner })) ∧
    (∀ k : Nat, k ≤ inst.len c.inner →
      c.seek (SeekFrom.End (-(k : Int))) =
        (some (inst.len c.inner - k), { c with pos := inst.len c.inner - k })) ∧
    (c.seek (SeekFrom.End 1) = (none, c)) ∧
    (c.seek (SeekFrom.End (-((inst.len c.inner : Int) + 1))) = (none, c)) := by
  refine ⟨?_, ?_, ?_, ?_⟩
  · refine seek_of_candidate_le c _ _ ?_ (le_refl _)
    simpa [CollectionCursor.seek_candidate] using
      checked_add_signed_eq_some (m := inst.len c.inner) (by omega) hN
  · intro k hk
    refine seek_of_candidate_le c _ _ ?_ (by omega)
    simpa [CollectionCursor.seek_candidate] using
      checked_add_signed_eq_some (m := inst.len c.inner - k) (by omega) (by omega)
  · by_cases hcase : inst.len c.inner + 1 < USIZE_LIMIT
    · refine seek_of_candidate_gt c _ (inst.len c.inner + 1) ?_ (by omega)
      simpa [CollectionCursor.seek_candidate] using
        checked_add_signed_eq_some (m := inst.len c.inner + 1) (by omega) hcase
    · refine seek_of_candidate_none c _ ?_
      simp only [CollectionCursor.seek_candidate]
      refine checked_add_signed_eq_none (Or.inr ?_)
      have : USIZE_LIMIT ≤ inst.len c.inner + 1 := by omega
      omega
  · refine seek_of_candidate_none c _ ?_
    simp only [CollectionCursor.seek_candidate]
    exact checked_add_signed_eq_none (Or.inl (by omega))

/-- Concrete instantiation of seek_end_correct on a list of length 3:
End (-2) lands at position 1, End 1 fails. -/
theorem seek_end_correct_witness :
    (CollectionCursor.new ([3, 1, 4] : List Nat)).seek (SeekFrom.End (-((2 : Nat) : Int))) =
      (some 1, { inner := [3, 1, 4], pos := 1 }) ∧
    (CollectionCursor.new ([3, 1, 4] : List Nat)).seek (SeekFrom.End 1) =
      (none, CollectionCursor.new [3, 1, 4]) :=
  ⟨(seek_end_correct (CollectionCursor.new ([3, 1, 4] : List Nat)) (by decide)).2.1 2 (by decide),
   (seek_end_correct (CollectionCursor.new ([3, 1, 4] : List Nat)) (by decide)).2.2.1⟩

/-- Claim C3: from a position p within bounds, seeking Current k succeeds
and sets the position to p + k exactly when 0 <= p + k <= N, and
otherwise fails with the position unchanged; Current 0 in particular
always succeeds and leaves the position where it was. -/
theorem seek_current_correct {Tape Item : Type} [inst : IndexableCollection Tape Item]
    (c : CollectionCursor Tape) (k : Int)
    (hp : c.pos ≤ inst.len c.inner) (hN : inst.len c.inner < USIZE_LIMIT) :
    (∀ m : Nat, (c.pos : Int) + k = (m : Int) →
      (m ≤ inst.len c.inner →
        c.seek (SeekFrom.Current k) = (some m, { c with pos := m })) ∧
      (inst.len c.inner < m → c.seek (SeekFrom.Current k) = (none, c))) ∧
    ((c.pos : Int) + k < 0 → c.seek (SeekFrom.Current k) = (none, c)) ∧
    (c.seek (SeekFrom.Current 0) = (some c.pos, c)) := by
  refine ⟨fun m hm => ⟨fun hle => ?_, fun hgt => ?_⟩, fun hneg => ?_, ?_⟩
  · refine seek_of_candidate_le c _ m ?_ hle
    simpa [CollectionCursor.seek_candidate] using
      checked_add_signed_eq_some hm (by omega)
  · by_cases hcase : m < USIZE_LIMIT
    · refine seek_of_candidate_gt c _ m ?_ hgt
      simpa [CollectionCursor.seek_candidate] using
        checked_add_signed_eq_some hm hcase
    · refine seek_of_candidate_none c _ ?_
      simp only [CollectionCursor.seek_candidate]
      refine checked_add_signed_eq_none (Or.inr ?_)
      omega
  · refine seek_of_candidate_none c _ ?_
    simp only [CollectionCursor.seek_candidate]
    exact checked_add_signed_eq_none (Or.inl hneg)
  · refine seek_of_candidate_le c _ c.pos ?_ hp
    simpa [CollectionCursor.seek_candidate] using
      checked_add_signed_eq_some (m := c.pos) (by omega) (by omega)

/-- Concrete instantiation of seek_current_correct at position 1 of a
two-item list: Current 1 lands at position 2. -/
theorem seek_current_correct_witness :
    (CollectionCursor.mk ([5, 6] : List Nat) 1).seek (SeekFrom.Current 1) =
      (some 2, { inner := [5, 6], pos := 2 }) :=
  ((seek_current_correct (CollectionCursor.mk ([5, 6] : List Nat) 1) 1
      (by decide) (by decide)).1 2 (by decide)).1 (by decide)

/-- Claim C4: on every failing path of seek — a failed candidate
computation (overflow or a negative result) or an out-of-range candidate —
seek returns none and the cursor, position included, is exactly what it
was before the call; no failing path mutates any state. -/
theorem seek_failure_frame {Tape Item : Type} [inst : IndexableCollection Tape Item]
    (c : CollectionCursor Tape) (d : SeekFrom) :
    (c.seek_candidate d = none → c.seek d = (none, c)) ∧
    (∀ m : Nat, c.seek_candidate d = some m → inst.len c.inner < m →
      c.seek d = (none, c)) ∧
    ((c.seek d).1 = none → (c.seek d).2 = c) := by
  refine ⟨seek_of_candidate_none c d,
    fun m hm hgt => seek_of_candidate_gt c d m hm hgt, ?_⟩
  intro h
  cases hfil : Option.filter (fun q => decide (q ≤ IndexableCollection.len c.inner))
      (c.seek_candidate d) with
  | none => simp [CollectionCursor.seek, hfil]
  | some m => simp [CollectionCursor.seek, hfil] at h

/-- Concrete instantiation of seek_failure_frame: an absolute seek past
the end and a relative seek before the beginning both fail and leave the
cursor untouched. -/
theorem seek_failure_frame_witness :
    (CollectionCursor.new ([1, 2] : List Nat)).seek (SeekFrom.Start 9) =
      (none, CollectionCursor.new [1, 2]) ∧
    (CollectionCursor.new ([1, 2] : List Nat)).seek (SeekFrom.Current (-1)) =
      (none, CollectionCursor.new [1, 2]) :=
  ⟨(seek_failure_frame (CollectionCursor.new ([1, 2] : List Nat))
      (SeekFrom.Start 9)).2.1 9 (by decide) (by decide),
   (seek_failure_frame (CollectionCursor.new ([1, 2] : List Nat))
      (SeekFrom.Current (-1))).1 (by decide)⟩

/-- Claim C5: clamp_to_collection_bounds sets the position to the minimum
of the position and the collection length, leaves the collection itself
alone, has no failure outcome (it is a total function into cursors), and
is idempotent: clamping twice equals clamping once. -/
theorem clamp_correct {Tape Item : Type} [inst : IndexableCollection Tape Item]
    (c : CollectionCursor Tape) :
    (c.clamp_to_collection_bounds).pos = min c.pos (inst.len c.inner) ∧
    (c.clamp_to_collection_bounds).inner = c.inner ∧
    c.clamp_to_collection_bounds.clamp_to_collection_bounds =
      c.clamp_to_collection_bounds := by
  refine ⟨rfl, rfl, ?_⟩
  simp only [CollectionCursor.clamp_to_collection_bounds]
  congr 1
  omega

/-- Concrete instantiation of clamp_correct: a cursor parked at 5 over a
two-item list clamps to position 2, and clamping again changes nothing. -/
theorem clamp_correct_witness :
    ((CollectionCursor.mk ([1, 2] : List Nat) 5).clamp_to_collection_bounds).pos =
      min 5 (IndexableCollection.len ([1, 2] : List Nat)) ∧
    ((CollectionCursor.mk ([1, 2] : List Nat) 5).clamp_to_collection_bounds).inner =
      [1, 2] ∧
    (CollectionCursor.mk ([1, 2] : List Nat)
        5).clamp_to_collection_bounds.clamp_to_collection_bounds =
      (CollectionCursor.mk ([1, 2] : List Nat) 5).clamp_to_collection_bounds :=
  clamp_correct (CollectionCursor.mk ([1, 2] : List Nat) 5)

/-- Claim C6: each derived convenience operation has exactly the state
effect of seek on its corresponding directive: seek_to_start matches
Start 0; seek_to_end matches End 0; seek_forward_one and
seek_backward_one match Current 1 and Current (-1), returning the success
boolean; seek_to_last_item matches Start (length - 1) for a non-empty
collection and Start 0 for an empty one. -/
theorem derived_ops_match_seek {Tape Item : Type} [inst : IndexableCollection Tape Item]
    (c : CollectionCursor Tape) (hN : inst.len c.inner < USIZE_LIMIT) :
    c.seek_to_start = (c.seek (SeekFrom.Start 0)).2 ∧
    c.seek_to_end = (c.seek (SeekFrom.End 0)).2 ∧
    c.seek_forward_one =
      ((c.seek (SeekFrom.Current 1)).1.isSome, (c.seek (SeekFrom.Current 1)).2) ∧
    c.seek_backward_one =
      ((c.seek (SeekFrom.Current (-1))).1.isSome, (c.seek (SeekFrom.Current (-1))).2) ∧
    (inst.len c.inner ≠ 0 →
      c.seek_to_last_item = (c.seek (SeekFrom.Start (inst.len c.inner - 1))).2) ∧
    (inst.len c.inner = 0 →
      c.seek_to_last_item = (c.seek (SeekFrom.Start 0)).2) := by
  refine ⟨?_, ?_, rfl, rfl, ?_, ?_⟩
  · rw [seek_of_candidate_le c (SeekFrom.Start 0) 0 rfl (Nat.zero_le _)]
    rfl
  · have hcand : c.seek_candidate (SeekFrom.End 0) = some (inst.len c.inner) := by
      simpa [CollectionCursor.seek_candidate] using
        checked_add_signed_eq_some (m := inst.len c.inner) (by omega) hN
    rw [seek_of_candidate_le c (SeekFrom.End 0) (inst.len c.inner) hcand (le_refl _)]
    rfl
  · intro h
    rw [seek_of_candidate_le c (SeekFrom.Start (inst.len c.inner - 1))
      (inst.len c.inner - 1) rfl (by omega)]
    rfl
  · intro h
    rw [seek_of_candidate_le c (SeekFrom.Start 0) 0 rfl (Nat.zero_le _)]
    simp [CollectionCursor.seek_to_last_item, h]

/-- Concrete instantiation of derived_ops_match_seek on a one-item list:
seek_to_end matches seek End 0 and seek_to_last_item matches seek at the
last index, which for one item is Start 0. -/
theorem derived_ops_match_seek_witness :
    (CollectionCursor.new ([7] : List Nat)).seek_to_end =
      ((CollectionCursor.new ([7] : List Nat)).seek (SeekFrom.End 0)).2 ∧
    (CollectionCursor.new ([7] : List Nat)).seek_to_last_item =
      ((CollectionCursor.new ([7] : List Nat)).seek (SeekFrom.Start 0)).2 :=
  ⟨(derived_ops_match_seek (CollectionCursor.new ([7] : List Nat)) (by decide)).2.1,
   (derived_ops_match_seek (CollectionCursor.new ([7] : List Nat))
      (by decide)).2.2.2.2.1 (by decide)⟩

/-- Every seek is either a failure returning the cursor unchanged, or a
success committing an in-range candidate as the position. -/
theorem seek_cases {Tape Item : Type} [inst : IndexableCollection Tape Item]
    (c : CollectionCursor Tape) (d : SeekFrom) :
    c.seek d = (none, c) ∨
    ∃ m, m ≤ inst.len c.inner ∧ c.seek d = (some m, { c with pos := m }) := by
  cases hc : c.seek_candidate d with
  | none => exact Or.inl (seek_of_candidate_none c d hc)
  | some n =>
    by_cases hn : n ≤ inst.len c.inner
    · exact Or.inr ⟨n, hn, seek_of_candidate_le c d n hc hn⟩
    · exact Or.inl (seek_of_candidate_gt c d n hc (Nat.not_le.mp hn))

/-- A seek from a position within bounds leaves the position within
bounds. -/
theorem seek_result_inv {Tape Item : Type} [inst : IndexableCollection Tape Item]
    (c : CollectionCursor Tape) (d : SeekFrom) (h : c.pos ≤ inst.len c.inner) :
    ((c.seek d).2).pos ≤ inst.len ((c.seek d).2).inner := by
  rcases seek_cases c d with h1 | ⟨m, hm, h2⟩
  · rw [h1]; exact h
  · rw [h2]; exact hm

/-- Claim C7: clear resets the position to 0 regardless of the position
beforehand and leaves the backing collection empty; emptiness of the
cleared collection is the mutable capability contract for clear, taken as
the hypothesis. -/
theorem clear_resets {Tape Item : Type} [instm : IndexableCollectionMut Tape Item]
    (c : CollectionCursor Tape)
    (h : instm.len (instm.clear c.inner) = 0) :
    (c.clear).pos = 0 ∧ instm.len ((c.clear).inner) = 0 :=
  ⟨rfl, h⟩

/-- Concrete instantiation of clear_resets: clearing a three-item cursor
positioned at 2 yields position 0 over an empty collection. -/
theorem clear_resets_witness :
    ((CollectionCursor.mk ([4, 5, 6] : List Nat) 2).clear).pos = 0 ∧
    IndexableCollection.len
      (((CollectionCursor.mk ([4, 5, 6] : List Nat) 2).clear).inner) = 0 :=
  clear_resets (CollectionCursor.mk ([4, 5, 6] : List Nat) 2) (by decide)

/-- Claim C8: the head-relative operations never move the head — the
position after get_item_at_head_mut, set_item_at_head and
remove_item_at_head equals the position before, removal included, with no
auto-adjustment — and reading at the head returns none when the position
is at or past the collection length, the read capability contract taken
as the hypothesis; get_item_at_head takes the cursor immutably, so it has
no cursor to move at all. -/
theorem head_ops_keep_position {Tape Item : Type} [instm : IndexableCollectionMut Tape Item]
    (c : CollectionCursor Tape) (x : Item)
    (hread : ∀ i : Nat, instm.len c.inner ≤ i → instm.get_item c.inner i = none) :
    (c.get_item_at_head_mut).2.pos = c.pos ∧
    (c.set_item_at_head x).pos = c.pos ∧
    (c.remove_item_at_head).2.pos = c.pos ∧
    (instm.len c.inner ≤ c.pos → c.get_item_at_head = none) :=
  ⟨rfl, rfl, rfl, fun h => hread c.pos h⟩

/-- Concrete instantiation of head_ops_keep_position: removing at the head
of a one-item cursor parked at 3 keeps the position at 3, and reading
there gives none. -/
theorem head_ops_keep_position_witness :
    ((CollectionCursor.mk ([1] : List Nat) 3).remove_item_at_head).2.pos = 3 ∧
    (CollectionCursor.mk ([1] : List Nat) 3).get_item_at_head = none :=
  ⟨(head_ops_keep_position (CollectionCursor.mk ([1] : List Nat) 3) 0
      (fun i hi => List.getElem?_eq_none hi)).2.2.1,
   (head_ops_keep_position (CollectionCursor.mk ([1] : List Nat) 3) 0
      (fun i hi => List.getElem?_eq_none hi)).2.2.2 (by decide)⟩

/-- The core-mediated operations of the cursor, as events for the
reachability invariant: every public cursor operation the invariant claim
ranges over (the escape hatch of direct mutable access is exactly what is
excluded). -/
inductive CursorOp (Item : Type) where
  | seekD : SeekFrom → CursorOp Item
  | clampPos : CursorOp Item
  | toStart : CursorOp Item
  | toEnd : CursorOp Item
  | forwardOne : CursorOp Item
  | backwardOne : CursorOp Item
  | toLastItem : CursorOp Item
  | clearAll : CursorOp Item
  | readHead : CursorOp Item
  | readHeadMut : CursorOp Item
  | setHead : Item → CursorOp Item
  | removeHead : CursorOp Item

/-- Runs one core-mediated operation on a cursor over the Vec adapter,
keeping the state effect and discarding any returned value; readHead takes
the cursor immutably and so leaves it as is. -/
def CursorOp.run {Item : Type} (c : CollectionCursor (List Item)) :
    CursorOp Item → CollectionCursor (List Item)
  | CursorOp.seekD d => (c.seek d).2
  | CursorOp.clampPos => c.clamp_to_collection_bounds
  | CursorOp.toStart => c.seek_to_start
  | CursorOp.toEnd => c.seek_to_end
  | CursorOp.forwardOne => (c.seek_forward_one).2
  | CursorOp.backwardOne => (c.seek_backward_one).2
  | CursorOp.toLastItem => c.seek_to_last_item
  | CursorOp.clearAll => c.clear
  | CursorOp.readHead => c
  | CursorOp.readHeadMut => (c.get_item_at_head_mut).2
  | CursorOp.setHead x => c.set_item_at_head x
  | CursorOp.removeHead => (c.remove_item_at_head).2

/-- Each core-mediated operation preserves the bounds invariant over the
Vec adapter. -/
theorem cursorOp_run_preserves {Item : Type} (c : CollectionCursor (List Item))
    (op : CursorOp Item) (h : c.pos ≤ c.inner.length) :
    (CursorOp.run c op).pos ≤ (CursorOp.run c op).inner.length := by
  cases op with
  | seekD d => exact seek_result_inv c d h
  | clampPos =>
    show min c.pos c.inner.length ≤ c.inner.length
    omega
  | toStart => exact Nat.zero_le _
  | toEnd => exact le_refl _
  | forwardOne =>
    show ((c.seek (SeekFrom.Current 1)).2).pos ≤
      ((c.seek (SeekFrom.Current 1)).2).inner.length
    exact seek_result_inv c (SeekFrom.Current 1) h
  | backwardOne =>
    show ((c.seek (SeekFrom.Current (-1))).2).pos ≤
      ((c.seek (SeekFrom.Current (-1))).2).inner.length
    exact seek_result_inv c (SeekFrom.Current (-1)) h
  | toLastItem => exact Nat.sub_le _ _
  | clearAll => exact Nat.zero_le _
  | readHead => exact h
  | readHeadMut => exact h
  | setHead x =>
    show c.pos ≤ (List.insertIdx c.pos x c.inner).length
    rw [List.length_insertIdx _ _ h]
    omega
  | removeHead =>
    show c.pos ≤ (if c.pos < c.inner.length
      then ((c.inner)[c.pos]?, c.inner.eraseIdx c.pos)
      else (none, c.inner)).2.length
    by_cases hlt : c.pos < c.inner.length
    · rw [if_pos hlt]
      show c.pos ≤ (c.inner.eraseIdx c.pos).length
      rw [List.length_eraseIdx_of_lt hlt]
      omega
    · rw [if_neg hlt]
      exact h

/-- Claim C9: every cursor reachable from construction through any
sequence of core-mediated operations over the Vec adapter satisfies the
bounds invariant: the position never exceeds the collection length (the
escape hatch — shrinking the collection through direct mutable access —
is not among the core-mediated operations). -/
theorem reachable_invariant {Item : Type} (t : List Item) (ops : List (CursorOp Item)) :
    (ops.foldl CursorOp.run (CollectionCursor.new t)).pos ≤
      ((ops.foldl CursorOp.run (CollectionCursor.new t)).inner).length := by
  suffices hgen : ∀ c : CollectionCursor (List Item), c.pos ≤ c.inner.length →
      (ops.foldl CursorOp.run c).pos ≤ ((ops.foldl CursorOp.run c).inner).length by
    exact hgen _ (Nat.zero_le _)
  induction ops with
  | nil => intro c h; simpa using h
  | cons op rest ih =>
    intro c h
    simpa using ih (CursorOp.run c op) (cursorOp_run_preserves c op h)

/-- Claim C10: seek never changes the backing collection — on success as
on failure only the position field may change — and wrapping a collection
with new then consuming the cursor with into_inner returns exactly the
collection that was passed in. -/
theorem seek_preserves_collection {Tape Item : Type} [inst : IndexableCollection Tape Item]
    (c : CollectionCursor Tape) :
    (∀ d : SeekFrom, ((c.seek d).2).inner = c.inner) ∧
    (∀ t : Tape, (CollectionCursor.new t).into_inner = t) := by
  refine ⟨fun d => ?_, fun t => rfl⟩
  rcases seek_cases c d with h1 | ⟨m, hm, h2⟩
  · rw [h1]
  · rw [h2]

/-- Concrete instantiation of seek_preserves_collection: a successful
absolute seek leaves the wrapped list as it was, and into_inner after new
gives back the very list. -/
theorem seek_preserves_collection_witness :
    (((CollectionCursor.new ([1, 2] : List Nat)).seek (SeekFrom.Start 1)).2).inner =
      [1, 2] ∧
    (CollectionCursor.new ([9] : List Nat)).into_inner = [9] :=
  ⟨(seek_preserves_collection (CollectionCursor.new ([1, 2] : List Nat))).1
      (SeekFrom.Start 1),
   (seek_preserves_collection (CollectionCursor.new ([1, 2] : List Nat))).2 [9]⟩

end MichisCassetteVec
